import Mathlib

/-!
Verification of the Escher-map renderer (`mosmo/preso/escher/escher_map.py`).

The Python module is shallowly embedded: Python floats are modelled as exact
rationals (`ℚ`); the single irrational operation `math.sqrt` is threaded
through the rendering functions as an explicit parameter `sq : ℚ → ℚ`
standing for the float square root; fallible Python code (raising
`ValueError`, `AttributeError`, `KeyError`) is modelled with `Except PyErr`.
XML element trees built with `xml.etree.ElementTree` are modelled by the
inductive type `XML`, with numeric attribute values kept as rationals
(string formatting of numbers is not modelled) and literal string attribute
values kept as strings.
-/

deriving instance DecidableEq for Except

namespace Escher

/-- Python exception kinds that the embedded code can raise. -/
inductive PyErr where
  | valueError
  | attributeError
  | keyError
  deriving DecidableEq

/-- Python `int(·)` applied to a float truncates toward zero.  For a rational
`q = num/den` (with `den > 0`) this is exactly T-division of `num` by `den`. -/
def pyTrunc (q : ℚ) : ℤ := q.num.tdiv q.den

/-- The rounding used by `Color.__str__`: `int(x + 0.5)`. -/
def pyRound (q : ℚ) : ℤ := pyTrunc (q + 1/2)

/-- Characters stripped by Python `int(str, 16)` (via `str.strip`), restricted
to the ASCII whitespace characters. -/
def isPyWs (c : Char) : Bool :=
  c = ' ' || c = '\t' || c = '\n' || c = '\x0d' || c = '\x0b' || c = '\x0c'

/-- Strip leading and trailing whitespace from a character list. -/
def stripWs (l : List Char) : List Char :=
  ((l.dropWhile isPyWs).reverse.dropWhile isPyWs).reverse

/-- Numeric value of a base-16 digit character (Python accepts both cases). -/
def hexDigitVal (c : Char) : Option ℕ :=
  if '0' ≤ c ∧ c ≤ '9' then some (c.toNat - 48)
  else if 'a' ≤ c ∧ c ≤ 'f' then some (c.toNat - 87)
  else if 'A' ≤ c ∧ c ≤ 'F' then some (c.toNat - 55)
  else none

/-- Whether `c` is a base-16 digit. -/
def isHexDigit (c : Char) : Bool := (hexDigitVal c).isSome

/-- Digit part of Python's `int(·, 16)`: hexadecimal digits with single
underscores allowed between digits.  `prevDigit` records whether the previous
character was a digit (Python allows one underscore directly after the `0x`
prefix, which callers encode by starting with `prevDigit = true`). -/
def hexCore : List Char → ℕ → Bool → Option ℕ
  | [], acc, prevDigit => if prevDigit then some acc else none
  | c :: rest, acc, prevDigit =>
    match hexDigitVal c with
    | some v => hexCore rest (16 * acc + v) true
    | none => if c = '_' ∧ prevDigit then hexCore rest acc false else none

/-- Optional-sign stage of Python's `int(·, 16)`: returns the sign and the
remaining characters. -/
def stripSign (l : List Char) : ℤ × List Char :=
  match l with
  | c :: r => if c = '+' then (1, r) else if c = '-' then (-1, r) else (1, l)
  | [] => (1, [])

/-- Magnitude stage of Python's `int(·, 16)`: an optional `0x`/`0X` prefix
(which must be followed by at least one more character, and after which a
leading underscore is allowed), then underscore-separated hex digits. -/
def hexMag (l : List Char) : Option ℕ :=
  match l with
  | c :: x :: r =>
    if c = '0' ∧ (x = 'x' ∨ x = 'X') then
      match r with
      | [] => none
      | _ => hexCore r 0 true
    else hexCore l 0 false
  | _ => hexCore l 0 false

/-- Python's `int(s, 16)`: optional surrounding whitespace, an optional sign,
an optional `0x`/`0X` prefix, then underscore-separated hex digits.
Returns `none` where Python raises `ValueError`. -/
def pyIntBase16 (s : String) : Option ℤ :=
  let sl := stripSign (stripWs s.data)
  (hexMag sl.2).map (fun m => sl.1 * m)

/-- Lowercase hex digit character for a value `0 ≤ n < 16`. -/
def hexDigitChar (n : ℕ) : Char :=
  if n < 10 then Char.ofNat (48 + n) else Char.ofNat (87 + n)

/-- Hex-digit recursion with explicit fuel (structural, so the kernel can
evaluate it; `fuel = n + 1` always suffices since the digit count of `n` is at
most `n + 1`). -/
def natToHexAux : ℕ → ℕ → List Char
  | 0, _ => []
  | f + 1, n =>
    if n < 16 then [hexDigitChar n]
    else natToHexAux f (n / 16) ++ [hexDigitChar (n % 16)]

/-- Lowercase hexadecimal digits of `n`, most significant first (`['0']` for 0),
as produced by Python's `x` format code for nonnegative values. -/
def natToHexList (n : ℕ) : List Char := natToHexAux (n + 1) n

/-- Left-pad a digit list with `'0'` to width `w`. -/
def padZero (w : ℕ) (l : List Char) : List Char :=
  List.replicate (w - l.length) '0' ++ l

/-- Python's `format(n, '02x')` for an integer `n`: lowercase hex, zero-padded
to a *total* width of 2 (the sign, if any, counts toward the width and no
clamping of any kind is applied). -/
def fmt02x (n : ℤ) : List Char :=
  if n < 0 then '-' :: padZero 1 (natToHexList n.natAbs)
  else padZero 2 (natToHexList n.natAbs)

/-- `Color` (dataclass): three float channels supporting channel-wise
arithmetic.  Channels may leave the nominal 0–255 range. -/
structure Color where
  r : ℚ
  g : ℚ
  b : ℚ
  deriving DecidableEq

/-- `Color.__add__`. -/
instance : Add Color := ⟨fun a c => ⟨a.r + c.r, a.g + c.g, a.b + c.b⟩⟩

/-- `Color.__sub__`. -/
instance : Sub Color := ⟨fun a c => ⟨a.r - c.r, a.g - c.g, a.b - c.b⟩⟩

/-- `Color.__mul__` / `Color.__rmul__` (scaling by a float factor). -/
instance : HMul ℚ Color Color := ⟨fun k c => ⟨c.r * k, c.g * k, c.b * k⟩⟩

/-- `Color.__truediv__`. -/
instance : HDiv Color ℚ Color := ⟨fun c k => ⟨c.r / k, c.g / k, c.b / k⟩⟩

/-- `Color.from_hex`: requires `hexstr.startswith("#") and len(hexstr) == 7`,
then parses the three two-character groups with Python `int(·, 16)`; any
failure is a `ValueError`. -/
def Color.from_hex (s : String) : Except PyErr Color :=
  match s.data with
  | c0 :: c1 :: c2 :: c3 :: c4 :: c5 :: c6 :: [] =>
    if c0 = '#' then
      match pyIntBase16 (String.mk [c1, c2]), pyIntBase16 (String.mk [c3, c4]),
            pyIntBase16 (String.mk [c5, c6]) with
      | some r, some g, some b => .ok ⟨(r : ℚ), (g : ℚ), (b : ℚ)⟩
      | _, _, _ => .error .valueError
    else .error .valueError
  | _ => .error .valueError

/-- `Color.__str__`: `f"#{int(self.r + 0.5):02x}{int(self.g + 0.5):02x}{int(self.b + 0.5):02x}"`. -/
def Color.toStr (c : Color) : String :=
  String.mk ('#' :: fmt02x (pyRound c.r) ++ fmt02x (pyRound c.g) ++ fmt02x (pyRound c.b))

/-- The sixteen lowercase hexadecimal digit characters, `'0'..'9'` then
`'a'..'f'`. -/
def lhexChars : List Char := (List.range 16).map hexDigitChar

/-- Numeric value of a (lowercase) hex digit, with default 0. -/
def lhexVal (c : Char) : ℕ := (hexDigitVal c).getD 0

/-- Whether a character is a lowercase hex digit or decimal digit. -/
def isLowerHexChar (c : Char) : Bool :=
  ('0' ≤ c && c ≤ '9') || ('a' ≤ c && c ≤ 'f')

/-- Python truthiness of an optional float (`None` and `0.0` are falsy). -/
def pyTruthyOpt (x : Option ℚ) : Bool :=
  match x with
  | none => false
  | some v => decide (v ≠ 0)

/-- Python truthiness of an optional dict argument (`None` and `{}` are
falsy). -/
def pyTruthyDict (d : Option (List (String × ℚ))) : Bool :=
  match d with
  | none => false
  | some l => !l.isEmpty

/-- One stop of a `Scale` after construction: `(value, Color.from_hex(color),
size)`.  The color is always present on a constructed stop because
`Color.from_hex(None)` raises before construction completes. -/
structure SStop where
  value : ℚ
  color : Color
  size : Option ℚ
  deriving DecidableEq

/-- `Scale`: sorted stops plus the `use_abs` flag. -/
structure Scale where
  stops : List SStop
  use_abs : Bool
  deriving DecidableEq

/-- Parsing of one raw stop inside `Scale.__init__`: `Color.from_hex(color)`
raises `AttributeError` when the color is `None` (`None.startswith` fails). -/
def Scale.initStop : ℚ × Option String × Option ℚ → Except PyErr SStop
  | (_, none, _) => .error .attributeError
  | (v, some cs, sz) => (Color.from_hex cs).map (fun col => ⟨v, col, sz⟩)

/-- `Scale.__init__`: parses every stop and stores them sorted ascending by
value (`sorted` with `key=lambda x: x[0]`, a stable sort).  Note: contrary to
its docstring, the constructor performs no validation of the stop count or of
color/size consistency. -/
def Scale.init (stops : List (ℚ × Option String × Option ℚ)) (use_abs : Bool) :
    Except PyErr Scale := do
  let parsed ← stops.mapM Scale.initStop
  pure ⟨parsed.mergeSort (fun a b => decide (a.value ≤ b.value)), use_abs⟩

/-- The bracketing scan of `Scale.style`: `lb` starts at the first stop and,
for each subsequent stop `ub`, the scan stops when `ub.value ≥ value` and
otherwise advances `lb` to `ub`.  An empty remainder leaves Python's `ub`
unbound (`NameError`); that case is unreachable for in-range values. -/
def Scale.bracket (value : ℚ) : SStop → List SStop → SStop × SStop
  | lb, [] => (lb, lb)
  | lb, ub :: rest => if value ≤ ub.value then (lb, ub) else Scale.bracket value ub rest

/-- Last element of a nonempty list of stops. -/
def lastStop (first : SStop) (rest : List SStop) : SStop :=
  (first :: rest).getLast (List.cons_ne_nil first rest)

/-- `Scale.style`: absolute value when `use_abs`, clamping outside the stop
range, linear interpolation between the bracketing stops inside it.  The
Python guard `if lb[1] and ub[1]` is always true on constructed stops (a
dataclass instance is truthy), so the color is always interpolated; the guard
`if lb[2] and ub[2]` uses float truthiness, so a `0` size (not just a missing
one) suppresses the interpolated size.  An empty stop list raises `IndexError`
in Python; it is mapped to `(none, none)` here and excluded by hypotheses. -/
def Scale.styleCore (use_abs : Bool) (first : SStop) (rest : List SStop)
    (value : ℚ) : Option Color × Option ℚ :=
  let v := if use_abs then |value| else value
  if v < first.value then (some first.color, first.size)
  else if v > (lastStop first rest).value then
    (some (lastStop first rest).color, (lastStop first rest).size)
  else
    let lu := Scale.bracket v first rest
    let p := (v - lu.1.value) / (lu.2.value - lu.1.value)
    let color := some (p * lu.2.color + (1 - p) * lu.1.color)
    let size :=
      if pyTruthyOpt lu.1.size && pyTruthyOpt lu.2.size then
        some (p * lu.2.size.getD 0 + (1 - p) * lu.1.size.getD 0)
      else none
    (color, size)

def Scale.style (s : Scale) (value : ℚ) : Option Color × Option ℚ :=
  match s.stops with
  | [] => (none, none)
  | first :: rest => Scale.styleCore s.use_abs first rest value

/-- Attribute values of the XML model: literal strings, numbers (Python
formats them with `str(·)`/f-strings, not modelled), number lists (the
`viewBox`), and path data. -/
inductive PathD where
  | line (a b : ℚ × ℚ)
  | cubic (a p1 p2 b : ℚ × ℚ)
  deriving DecidableEq

inductive AVal where
  | s (v : String)
  | q (v : ℚ)
  | qs (v : List ℚ)
  | d (v : PathD)
  deriving DecidableEq

/-- Text content of an element: a literal string or a number rendered with
`str(·)`. -/
inductive TextVal where
  | s (v : String)
  | q (v : ℚ)
  deriving DecidableEq

/-- `xml.etree.ElementTree.Element`: tag, attributes (an insertion-ordered
dict), optional text, and child elements. -/
inductive XML where
  | elem (tag : String) (attrs : List (String × AVal)) (text : Option TextVal)
      (children : List XML)

def XML.tag : XML → String
  | .elem t _ _ _ => t

def XML.attrs : XML → List (String × AVal)
  | .elem _ a _ _ => a

def XML.text : XML → Option TextVal
  | .elem _ _ t _ => t

def XML.children : XML → List XML
  | .elem _ _ _ c => c

/-- Dict assignment on an attribute list: replace in place, or append a new
key (Python dict semantics). -/
def setPairs : List (String × AVal) → String → AVal → List (String × AVal)
  | [], k, v => [(k, v)]
  | (k', v') :: rest, k, v =>
    if k' = k then (k, v) :: rest else (k', v') :: setPairs rest k v

/-- `Element.set(key, value)`. -/
def XML.setAttr (x : XML) (k : String) (v : AVal) : XML :=
  .elem x.tag (setPairs x.attrs k v) x.text x.children

/-- `Element.get(key)`. -/
def XML.getAttr (x : XML) (k : String) : Option AVal :=
  x.attrs.lookup k

/-- Walk down a chain of child indices. -/
def XML.descend : XML → List ℕ → Option XML
  | x, [] => some x
  | x, i :: rest =>
    match x.children[i]? with
    | some c => XML.descend c rest
    | none => none

/-- The fields of a `MapMetabolite` node (a `MapNode` carrying a metabolite). -/
structure MetabData where
  center : ℚ × ℚ
  metabolite_id : String
  primary : Bool
  label_pos : ℚ × ℚ
  deriving DecidableEq

/-- A node that can serve as an endpoint for a segment: a plain `MapNode`
(connector) or a `MapMetabolite`. -/
inductive MapNode where
  | connector (center : ℚ × ℚ)
  | metabolite (m : MetabData)
  deriving DecidableEq

/-- `isinstance(node, MapMetabolite)`. -/
def MapNode.isMetabolite : MapNode → Bool
  | .connector _ => false
  | .metabolite _ => true

def MapNode.center : MapNode → ℚ × ℚ
  | .connector c => c
  | .metabolite m => m.center

/-- `MapMetabolite.size()`: 20 for a primary metabolite, else 12. -/
def MetabData.size (m : MetabData) : ℚ := if m.primary then 20 else 12

/-- Node size as used by segment trimming.  Python calls
`self.to_node.size()`, which only exists on `MapMetabolite`; the connector
case (an `AttributeError` in Python) is unreachable because trimming only
happens for metabolite segments. -/
def MapNode.size : MapNode → ℚ
  | .metabolite m => m.size
  | .connector _ => 0

/-- A single connection tying a metabolite to a reaction, or nodes within a
reaction, after `MapSegment.__init__` has run. -/
structure MapSegment where
  from_node : MapNode
  to_node : MapNode
  b1 : Option (ℚ × ℚ)
  b2 : Option (ℚ × ℚ)
  metabolite_id : Option String
  count : Option ℚ
  has_arrow : Bool
  deriving DecidableEq

/-- `MapSegment.__init__`: resolve endpoints, swap `from`/`to` (and `b1`/`b2`)
when the `from` endpoint is a metabolite, then derive `metabolite_id`,
`count` (a `KeyError` if the metabolite is missing from the reaction's
stoichiometry dict) and `has_arrow = count > 0 or reaction.reversible`.
`stoich` and `reversible` are the owning reaction's fields. -/
def MapSegment.init (stoich : List (String × ℚ)) (reversible : Bool)
    (from0 to0 : MapNode) (b1 b2 : Option (ℚ × ℚ)) : Except PyErr MapSegment :=
  let fn := if from0.isMetabolite then to0 else from0
  let tn := if from0.isMetabolite then from0 else to0
  let nb1 := if from0.isMetabolite then b2 else b1
  let nb2 := if from0.isMetabolite then b1 else b2
  match tn with
  | .metabolite m =>
    match stoich.lookup m.metabolite_id with
    | none => .error .keyError
    | some cnt =>
      .ok ⟨fn, tn, nb1, nb2, some m.metabolite_id, some cnt,
           decide (cnt > 0) || reversible⟩
  | .connector _ => .ok ⟨fn, tn, nb1, nb2, none, none, false⟩

/-- `approach = self.b2 or start` (a coordinate pair is always truthy, so this
is `b2` unless it is `None`). -/
def MapSegment.approach (seg : MapSegment) : ℚ × ℚ :=
  seg.b2.getD seg.from_node.center

def MapSegment.dx (seg : MapSegment) : ℚ :=
  seg.to_node.center.1 - seg.approach.1

def MapSegment.dy (seg : MapSegment) : ℚ :=
  seg.to_node.center.2 - seg.approach.2

/-- `l = math.sqrt(dx * dx + dy * dy)`, with the float square root supplied as
the oracle `sq`. -/
def MapSegment.segLen (sq : ℚ → ℚ) (seg : MapSegment) : ℚ :=
  sq (seg.dx * seg.dx + seg.dy * seg.dy)

/-- `padding = 20. if self.has_arrow else 10.` -/
def MapSegment.padding (seg : MapSegment) : ℚ :=
  if seg.has_arrow then 20 else 10

/-- `_l = l - self.to_node.size() - padding; if _l < minlen: _l = l -
self.to_node.size()` with `minlen = 5.`. -/
def MapSegment.trimmedLen (sq : ℚ → ℚ) (seg : MapSegment) : ℚ :=
  let l := seg.segLen sq
  let l1 := l - seg.to_node.size - seg.padding
  if l1 < 5 then l - seg.to_node.size else l1

/-- `end = (approach[0] + dx * ratio, approach[1] + dy * ratio)` with
`ratio = _l / l`. -/
def MapSegment.newEnd (sq : ℚ → ℚ) (seg : MapSegment) : ℚ × ℚ :=
  let ratio := seg.trimmedLen sq / seg.segLen sq
  (seg.approach.1 + seg.dx * ratio, seg.approach.2 + seg.dy * ratio)

/-- The trimmed path's attribute dict: a cubic bezier through `b1`, `b2` when
both are present (`if self.b1 and self.b2`, and a coordinate pair is always
truthy) else a straight line, plus the arrowhead marker reference when
`has_arrow`. -/
def MapSegment.pathAttrs (sq : ℚ → ℚ) (seg : MapSegment) : List (String × AVal) :=
  (match seg.b1, seg.b2 with
   | some p1, some p2 => [("d", .d (.cubic seg.from_node.center p1 p2 (seg.newEnd sq)))]
   | _, _ => [("d", .d (.line seg.from_node.center (seg.newEnd sq)))]) ++
  (if seg.has_arrow then [("marker-end", .s "url(#arrowhead)")] else [])

/-- `MapSegment.to_svg`: a bare connector path for non-metabolite segments;
otherwise the trimmed (line or cubic) path with an arrowhead marker when
`has_arrow`, wrapped together with a stoichiometry label in a group when
`abs(count) != 1` (the label text is `str(abs(count))`, modelled as the
number itself).  A constructed metabolite segment always has `count = some _`
(Python would raise on `abs(None)`), so the default in `getD` is inert. -/
def MapSegment.to_svg (sq : ℚ → ℚ) (seg : MapSegment) : XML :=
  match seg.metabolite_id with
  | none =>
    .elem "path" [("d", .d (.line seg.from_node.center seg.to_node.center))] none []
  | some _ =>
    let path := XML.elem "path" (seg.pathAttrs sq) none []
    let cnt := |seg.count.getD 0|
    if cnt = 1 then path
    else
      let l := seg.segLen sq
      let stoich_label := XML.elem "text"
        [("class", .s "label stoich"),
         ("x", .q ((seg.newEnd sq).1 + seg.dy / l * 24)),
         ("y", .q ((seg.newEnd sq).2 - seg.dx / l * 24))]
        (some (.q cnt)) []
      XML.elem "g" [] none [path, stoich_label]

/-- A collection of segments associating metabolites with a reaction. -/
structure MapReaction where
  reaction_id : String
  stoich : List (String × ℚ)
  reversible : Bool
  label_pos : ℚ × ℚ
  segments : List MapSegment

/-- The per-segment body of the loop in `MapReaction.to_svg`: start from
`segment.to_svg()`, override stroke and width when the reaction has a styled
color/size, then apply the direction rule when both a direction value and the
segment's `count` are available (`marker-end` is set to the arrowhead
reference if `count * direction > 0` and cleared otherwise). -/
def MapReaction.arcFor (sq : ℚ → ℚ) (color : Option Color) (size : Option ℚ)
    (direction : Option ℚ) (seg : MapSegment) : XML :=
  let arc := seg.to_svg sq
  let arc := match color with
    | some c => arc.setAttr "stroke" (.s c.toStr)
    | none => arc
  let arc := match size with
    | some z => arc.setAttr "stroke-width" (.q z)
    | none => arc
  match direction, seg.count with
  | some dv, some cnt =>
    if cnt * dv > 0 then arc.setAttr "marker-end" (.s "url(#arrowhead)")
    else arc.setAttr "marker-end" (.s "")
  | _, _ => arc

/-- `color, size = None, None` overridden by `self.parent.reaction_scale.style(value)`
when both the value and the scale are present. -/
def MapReaction.styleOf (rscale : Option Scale) (value : Option ℚ) :
    Option Color × Option ℚ :=
  match value, rscale with
  | some v, some sc => sc.style v
  | _, _ => (none, none)

/-- `MapReaction.to_svg(value, direction)`.  `rscale` stands for
`self.parent.reaction_scale`; `(color, size)` defaults to `(None, None)` and
is computed from the reaction scale when a value is present. -/
def MapReaction.to_svg (sq : ℚ → ℚ) (rscale : Option Scale) (r : MapReaction)
    (value direction : Option ℚ) : XML :=
  let cs := MapReaction.styleOf rscale value
  let label := XML.elem "text"
    [("class", .s "label"), ("x", .q r.label_pos.1), ("y", .q r.label_pos.2)]
    (some (.s r.reaction_id)) []
  XML.elem "g" [("name", .s r.reaction_id)] none
    (r.segments.map (MapReaction.arcFor sq cs.1 cs.2 direction) ++ [label])

/-- `MapMetabolite.to_svg(value)`: the circle (with fill, stroke and radius
overridden from the metabolite scale when a value is present; `str(None)`
renders as `"None"`), plus the id label, in a named group.  `mscale` stands
for `self.parent.metabolite_scale`. -/
def MetabData.to_svg (mscale : Option Scale) (m : MetabData) (value : Option ℚ) : XML :=
  let circle := XML.elem "circle"
    [("cx", .q m.center.1), ("cy", .q m.center.2), ("r", .q m.size)] none []
  let circle :=
    match value, mscale with
    | some v, some sc =>
      let cs := sc.style v
      ((circle.setAttr "fill"
          (.s (match cs.1 with | some c => c.toStr | none => "None"))).setAttr
        "stroke" (.s "none")).setAttr
        "r" (match cs.2 with | some z => .q z | none => .s "None")
    | _, _ => circle
  let label := XML.elem "text"
    [("class", .s "label"), ("x", .q m.label_pos.1), ("y", .q m.label_pos.2)]
    (some (.s m.metabolite_id)) []
  XML.elem "g" [("name", .s m.metabolite_id)] none [circle, label]

/-- The default Escher style sheet (braces escaped). -/
def CSS : String :=
  "\n    #canvas \x7b\n      fill: #ffffff;\n      stroke: #cccccc;\n    \x7d\n    .label \x7b\n      font-family: sans-serif;\n      font-style: italic;\n      font-weight: bold;\n      stroke: none;\n      text-rendering: optimizelegibility;\n    \x7d\n    #reactions .label \x7b\n      font-size: 30px;\n      fill: #334e75;\n    \x7d\n    #reactions .label.stoich \x7b\n      font-size: 12px;\n      fill: #334e75;\n    \x7d\n    #metabolites .label \x7b\n      font-size: 20px;\n      fill: black;\n    \x7d\n"

def MET_FILL : String := "#e0865b"

def MET_STROKE : String := "#a24510"

def RXN_STROKE : String := "#334e75"

/-- The constructed `EscherMap` model.  `width`/`height` hold the `str(·)` of
whatever was supplied; the scales are the constructor arguments. -/
structure EscherMap where
  width : String
  height : String
  reaction_scale : Option Scale
  metabolite_scale : Option Scale
  origin : ℚ × ℚ
  size : ℚ × ℚ
  metabolites : List MetabData
  reactions : List MapReaction

/-- The reactions group's default attributes: standard stroke, overridden by
`set("stroke", "#eeeeee"); set("stroke-width", "5")` when `reaction_data` is
truthy (supplied and non-empty). -/
def reactionsGroupAttrs (reaction_data : Option (List (String × ℚ))) :
    List (String × AVal) :=
  let base := [("id", AVal.s "reactions"), ("fill", AVal.s "none"),
               ("stroke", AVal.s RXN_STROKE), ("stroke-width", AVal.s "10")]
  if pyTruthyDict reaction_data then
    setPairs (setPairs base "stroke" (.s "#eeeeee")) "stroke-width" (.s "5")
  else base

/-- The metabolites group's default attributes: standard fill/stroke,
overridden by `set("fill", "#eeeeee"); set("stroke", "none")` when
`metabolite_data` is truthy (supplied and non-empty). -/
def metabolitesGroupAttrs (metabolite_data : Option (List (String × ℚ))) :
    List (String × AVal) :=
  let base := [("id", AVal.s "metabolites"), ("fill", AVal.s MET_FILL),
               ("stroke", AVal.s MET_STROKE), ("stroke-width", AVal.s "2")]
  if pyTruthyDict metabolite_data then
    setPairs (setPairs base "fill" (.s "#eeeeee")) "stroke" (.s "none")
  else base

/-- The direction mapping after the defaulting of `EscherMap.to_svg`:
`reaction_data` is first defaulted `None → {}`, and `reaction_direction`
defaults to the result when it is `None`. -/
def rdirOf (reaction_data reaction_direction : Option (List (String × ℚ))) :
    List (String × ℚ) :=
  match reaction_direction with
  | none => reaction_data.getD []
  | some dd => dd

/-- `EscherMap.to_svg(metabolite_data, reaction_data, reaction_direction)`:
defs (style + arrowhead marker), the canvas rectangle, the reactions group
(default stroke de-emphasized exactly when `reaction_data` is truthy, i.e.
supplied and non-empty), and the metabolites group (fill/stroke de-emphasized
exactly when `metabolite_data` is truthy).  When `reaction_direction` is
`None` it defaults to `reaction_data` (after the latter's `None → {}`
defaulting). -/
def EscherMap.to_svg (sq : ℚ → ℚ) (m : EscherMap)
    (metabolite_data reaction_data reaction_direction : Option (List (String × ℚ))) :
    XML :=
  let style := XML.elem "style" [("type", .s "text/css")] (some (.s CSS)) []
  let markerPath := XML.elem "path"
    [("d", .s "M 0 -10 L 13 0 L 0 10 Z"), ("fill", .s "#334e75"), ("stroke", .s "none")]
    none []
  let marker := XML.elem "marker"
    [("id", .s "arrowhead"), ("viewBox", .s "0 -10 13 20"), ("refX", .s "2"),
     ("refY", .s "0"), ("markerUnits", .s "strokeWidth"), ("markerWidth", .s "2"),
     ("markerHeight", .s "2"), ("orient", .s "auto")]
    none [markerPath]
  let defs := XML.elem "defs" [] none [style, marker]
  let canvas := XML.elem "rect"
    [("id", .s "canvas"), ("x", .q m.origin.1), ("y", .q m.origin.2),
     ("width", .q m.size.1), ("height", .q m.size.2)]
    none []
  let rdata := reaction_data.getD []
  let rdir := rdirOf reaction_data reaction_direction
  let reactionsG := XML.elem "g" (reactionsGroupAttrs reaction_data) none
    (m.reactions.map (fun r =>
      MapReaction.to_svg sq m.reaction_scale r
        (rdata.lookup r.reaction_id) (rdir.lookup r.reaction_id)))
  let mdata := metabolite_data.getD []
  let metabolitesG := XML.elem "g" (metabolitesGroupAttrs metabolite_data) none
    (m.metabolites.map (fun mm =>
      MetabData.to_svg m.metabolite_scale mm (mdata.lookup mm.metabolite_id)))
  let root := XML.elem "g" [("id", .s "eschermap")] none
    [canvas, reactionsG, metabolitesG]
  XML.elem "svg"
    [("width", .s m.width), ("height", .s m.height),
     ("viewBox", .qs [m.origin.1, m.origin.2, m.size.1, m.size.2])]
    none [defs, root]

/-- A minimal constructed map with no nodes or reactions (used as a concrete
rendering input). -/
def emptyMap : EscherMap :=
  ⟨"None", "None", none, none, (0, 0), (100, 100), [], []⟩

section NumLemmas

/-- On nonnegative rationals, Python `int` truncation agrees with the floor. -/
theorem pyTrunc_of_nonneg (q : ℚ) (h : 0 ≤ q) : pyTrunc q = ⌊q⌋ := by
  rw [Rat.floor_def, pyTrunc]
  exact Int.tdiv_eq_ediv (Rat.num_nonneg.mpr h) (by positivity)

/-- For channels ≥ -1/2 (in particular throughout the nominal range),
`int(x + 0.5)` is exactly round-half-up, i.e. Mathlib's `round`. -/
theorem pyRound_eq_round (q : ℚ) (h : -(1/2) ≤ q) : pyRound q = round q := by
  rw [pyRound, pyTrunc_of_nonneg _ (by linarith), round_eq]

/-- Rounding a nonnegative integer-valued channel returns that integer. -/
theorem pyRound_intCast (n : ℤ) (h : 0 ≤ n) : pyRound (n : ℚ) = n := by
  have h2 : (0 : ℚ) ≤ (n : ℚ) + 1/2 := by
    have : (0:ℚ) ≤ (n : ℚ) := by exact_mod_cast h
    linarith
  rw [pyRound, pyTrunc_of_nonneg _ h2, Int.floor_int_add]
  norm_num

/-- Channels in `[-1/2, 255.5)` round into `[0, 255]`. -/
theorem pyRound_mem_range (q : ℚ) (h1 : -(1/2) ≤ q) (h2 : q < 255 + 1/2) :
    0 ≤ pyRound q ∧ pyRound q ≤ 255 := by
  have h0 : (0 : ℚ) ≤ q + 1/2 := by linarith
  rw [pyRound, pyTrunc_of_nonneg _ h0]
  refine ⟨Int.floor_nonneg.mpr h0, ?_⟩
  have hlt : ⌊q + 1/2⌋ < 256 := Int.floor_lt.mpr (by push_cast; linarith)
  omega

set_option maxRecDepth 8192 in
/-- Every hex string of a value in `[0, 255]` is at most two lowercase hex
digits. -/
theorem natToHexList_small : ∀ m : ℕ, m < 256 →
    (natToHexList m).length ≤ 2 ∧ (natToHexList m).all isLowerHexChar = true := by
  decide

/-- `format(n, '02x')` on `0 ≤ n ≤ 255` produces exactly two lowercase hex
digits. -/
theorem fmt02x_of_range (n : ℤ) (h0 : 0 ≤ n) (h255 : n ≤ 255) :
    (fmt02x n).length = 2 ∧ (fmt02x n).all isLowerHexChar = true := by
  have hn : ¬ n < 0 := by omega
  have habs : n.natAbs < 256 := by omega
  obtain ⟨hlen, hhex⟩ := natToHexList_small n.natAbs habs
  rw [fmt02x, if_neg hn, padZero]
  refine ⟨?_, ?_⟩
  · simp only [List.length_append, List.length_replicate]
    omega
  · rw [List.all_append, hhex, Bool.and_true]
    apply List.all_eq_true.mpr
    intro c hc
    rw [List.eq_of_mem_replicate hc]
    decide

end NumLemmas

section PyIntLemmas

/-- Unfolding `stripWs` on a two-character list. -/
theorem stripWs_pair (a b : Char) :
    stripWs [a, b] =
      if isPyWs a then (if isPyWs b then [] else [b])
      else (if isPyWs b then [a] else [a, b]) := by
  by_cases ha : isPyWs a <;> by_cases hb : isPyWs b <;>
    simp [stripWs, List.dropWhile, ha, hb]

/-- An empty digit part never parses. -/
theorem hexCore_nil (acc : ℕ) (pd : Bool) (m : ℕ) (h : hexCore [] acc pd = some m) :
    pd = true ∧ m = acc := by
  cases pd <;> simp [hexCore] at h <;> simp [h]

/-- One-step unfolding of `hexCore` on a cons cell. -/
theorem hexCore_cons (c : Char) (rest : List Char) (acc : ℕ) (pd : Bool) :
    hexCore (c :: rest) acc pd =
      match hexDigitVal c with
      | some v => hexCore rest (16 * acc + v) true
      | none => if c = '_' ∧ pd then hexCore rest acc false else none := rfl

/-- A one-character digit part parses only as a digit. -/
theorem hexCore_single (c : Char) (acc : ℕ) (pd : Bool) (m : ℕ)
    (h : hexCore [c] acc pd = some m) :
    ∃ v, hexDigitVal c = some v ∧ m = 16 * acc + v := by
  rw [hexCore_cons] at h
  rcases hv : hexDigitVal c with _ | v <;> rw [hv] at h
  · simp [hexCore, ite_self] at h
  · simp [hexCore] at h
    exact ⟨v, rfl, h.symm⟩

/-- A two-character digit part (not after a digit) parses only as two digits. -/
theorem hexCore_pair (c d : Char) (m : ℕ)
    (h : hexCore [c, d] 0 false = some m) :
    ∃ v w, hexDigitVal c = some v ∧ hexDigitVal d = some w ∧ m = 16 * v + w := by
  rw [hexCore_cons] at h
  rcases hv : hexDigitVal c with _ | v <;> rw [hv] at h
  · simp [hexCore, ite_self] at h
  · obtain ⟨w, hw, hm⟩ := hexCore_single d (16 * 0 + v) true m h
    exact ⟨v, w, rfl, hw, by omega⟩

/-- Hex digit values are below 16. -/
theorem hexDigitVal_lt (c : Char) (v : ℕ) (h : hexDigitVal c = some v) : v < 16 := by
  rw [hexDigitVal] at h
  split at h
  · rename_i h9
    have hub : c.toNat ≤ 57 := Char.le_def.mp h9.2
    have hlb : 48 ≤ c.toNat := Char.le_def.mp h9.1
    simp only [Option.some.injEq] at h
    omega
  · split at h
    · rename_i hf
      have hub : c.toNat ≤ 102 := Char.le_def.mp hf.2
      have hlb : 97 ≤ c.toNat := Char.le_def.mp hf.1
      simp only [Option.some.injEq] at h
      omega
    · split at h
      · rename_i hF
        have hub : c.toNat ≤ 70 := Char.le_def.mp hF.2
        have hlb : 65 ≤ c.toNat := Char.le_def.mp hF.1
        simp only [Option.some.injEq] at h
        omega
      · exact absurd h (by simp)

end PyIntLemmas

section PyIntBounds

/-- The magnitude stage yields nothing on an empty list. -/
theorem hexMag_nil (m : ℕ) (h : hexMag [] = some m) : False := by
  have he : hexMag [] = hexCore [] 0 false := rfl
  rw [he] at h
  simp [hexCore] at h

/-- The magnitude of a single character is a digit value, hence below 16. -/
theorem hexMag_single (c : Char) (m : ℕ) (h : hexMag [c] = some m) : m ≤ 15 := by
  have he : hexMag [c] = hexCore [c] 0 false := rfl
  rw [he] at h
  obtain ⟨v, hv, hm⟩ := hexCore_single c 0 false m h
  have := hexDigitVal_lt c v hv
  omega

/-- The magnitude of a two-character group is at most 255. -/
theorem hexMag_pair (c d : Char) (m : ℕ) (h : hexMag [c, d] = some m) : m ≤ 255 := by
  have he : hexMag [c, d] =
      if c = '0' ∧ (d = 'x' ∨ d = 'X') then none else hexCore [c, d] 0 false := rfl
  rw [he] at h
  by_cases hp : c = '0' ∧ (d = 'x' ∨ d = 'X')
  · rw [if_pos hp] at h
    simp at h
  · rw [if_neg hp] at h
    obtain ⟨v, w, hv, hw, hm⟩ := hexCore_pair c d m h
    have := hexDigitVal_lt c v hv
    have := hexDigitVal_lt d w hw
    omega

/-- No value is parsed from an empty remainder. -/
theorem pyBound_nil (v : ℤ)
    (h : (hexMag (stripSign []).2).map (fun m => (stripSign []).1 * (m : ℤ)) = some v) :
    False := by
  have hs : stripSign [] = (1, []) := rfl
  rw [hs] at h
  rcases hmm : hexMag [] with _ | m
  · rw [hmm] at h
    simp at h
  · exact hexMag_nil m hmm

/-- A one-character remainder parses to a value in `[-15, 15]`. -/
theorem pyBound_single (x : Char) (v : ℤ)
    (h : (hexMag (stripSign [x]).2).map (fun m => (stripSign [x]).1 * (m : ℤ)) = some v) :
    -15 ≤ v ∧ v ≤ 255 := by
  have hs : stripSign [x] =
      if x = '+' then ((1 : ℤ), ([] : List Char))
      else if x = '-' then ((-1 : ℤ), ([] : List Char)) else ((1 : ℤ), [x]) := rfl
  rw [hs] at h
  by_cases hp : x = '+'
  · rw [if_pos hp] at h
    rcases hmm : hexMag [] with _ | m
    · rw [hmm] at h
      simp at h
    · exact absurd hmm (fun hh => hexMag_nil m hh)
  · rw [if_neg hp] at h
    by_cases hq : x = '-'
    · rw [if_pos hq] at h
      rcases hmm : hexMag [] with _ | m
      · rw [hmm] at h
        simp at h
      · exact absurd hmm (fun hh => hexMag_nil m hh)
    · rw [if_neg hq] at h
      rcases hmm : hexMag [x] with _ | m
      · rw [hmm] at h
        simp at h
      · rw [hmm] at h
        simp at h
        have := hexMag_single x m hmm
        omega

/-- A two-character remainder parses to a value in `[-15, 255]`. -/
theorem pyBound_pair (a b : Char) (v : ℤ)
    (h : (hexMag (stripSign [a, b]).2).map (fun m => (stripSign [a, b]).1 * (m : ℤ)) = some v) :
    -15 ≤ v ∧ v ≤ 255 := by
  have hs : stripSign [a, b] =
      if a = '+' then ((1 : ℤ), [b])
      else if a = '-' then ((-1 : ℤ), [b]) else ((1 : ℤ), [a, b]) := rfl
  rw [hs] at h
  by_cases hp : a = '+'
  · rw [if_pos hp] at h
    rcases hmm : hexMag [b] with _ | m
    · rw [hmm] at h
      simp at h
    · rw [hmm] at h
      simp at h
      have := hexMag_single b m hmm
      omega
  · rw [if_neg hp] at h
    by_cases hq : a = '-'
    · rw [if_pos hq] at h
      rcases hmm : hexMag [b] with _ | m
      · rw [hmm] at h
        simp at h
      · rw [hmm] at h
        simp at h
        have := hexMag_single b m hmm
        omega
    · rw [if_neg hq] at h
      rcases hmm : hexMag [a, b] with _ | m
      · rw [hmm] at h
        simp at h
      · rw [hmm] at h
        simp at h
        have := hexMag_pair a b m hmm
        omega

/-- Any successfully parsed two-character group lies in `[-15, 255]`:
at most two hex digits when unsigned, at most one digit after a sign. -/
theorem pyIntBase16_pair_bound (a b : Char) (v : ℤ)
    (h : pyIntBase16 (String.mk [a, b]) = some v) : -15 ≤ v ∧ v ≤ 255 := by
  have hd : (String.mk [a, b]).data = [a, b] := rfl
  simp only [pyIntBase16, hd, stripWs_pair] at h
  by_cases ha : isPyWs a
  · rw [if_pos ha] at h
    by_cases hb : isPyWs b
    · rw [if_pos hb] at h
      exact absurd h (fun hh => pyBound_nil v hh)
    · rw [if_neg hb] at h
      exact pyBound_single b v h
  · rw [if_neg ha] at h
    by_cases hb : isPyWs b
    · rw [if_pos hb] at h
      exact pyBound_single a v h
    · rw [if_neg hb] at h
      exact pyBound_pair a b v h

end PyIntBounds

section ColorClaims

/-- Claim C5 (amended): a successful `Color.from_hex` parse implies the input
was exactly 7 characters and started with `#`, and each resulting channel
lies in `[-15, 255]`.  (The original claim is too strong on both counts it
goes beyond this: Python's `int(·, 16)` also accepts signed and
whitespace-padded digit groups, so inputs whose last six characters are not
all hex digits can still parse — producing channels as low as `-15`.) -/
theorem C5_parse_result (s : String) (c : Color) (h : Color.from_hex s = .ok c) :
    s.data.length = 7 ∧ s.data.head? = some '#' ∧
    (-15 ≤ c.r ∧ c.r ≤ 255) ∧ (-15 ≤ c.g ∧ c.g ≤ 255) ∧ (-15 ≤ c.b ∧ c.b ≤ 255) := by
  obtain ⟨l⟩ := s
  rcases l with _ | ⟨c0, _ | ⟨c1, _ | ⟨c2, _ | ⟨c3, _ | ⟨c4, _ | ⟨c5, _ | ⟨c6, _ | ⟨c7, rest⟩⟩⟩⟩⟩⟩⟩⟩
  · rw [show Color.from_hex ⟨[]⟩ = .error .valueError from rfl] at h
    simp at h
  · rw [show Color.from_hex ⟨[c0]⟩ = .error .valueError from rfl] at h
    simp at h
  · rw [show Color.from_hex ⟨[c0, c1]⟩ = .error .valueError from rfl] at h
    simp at h
  · rw [show Color.from_hex ⟨[c0, c1, c2]⟩ = .error .valueError from rfl] at h
    simp at h
  · rw [show Color.from_hex ⟨[c0, c1, c2, c3]⟩ = .error .valueError from rfl] at h
    simp at h
  · rw [show Color.from_hex ⟨[c0, c1, c2, c3, c4]⟩ = .error .valueError from rfl] at h
    simp at h
  · rw [show Color.from_hex ⟨[c0, c1, c2, c3, c4, c5]⟩ = .error .valueError from rfl] at h
    simp at h
  · have hfh : Color.from_hex ⟨[c0, c1, c2, c3, c4, c5, c6]⟩ =
        (if c0 = '#' then
          match pyIntBase16 (String.mk [c1, c2]), pyIntBase16 (String.mk [c3, c4]),
                pyIntBase16 (String.mk [c5, c6]) with
          | some r, some g, some b => Except.ok (⟨(r : ℚ), (g : ℚ), (b : ℚ)⟩ : Color)
          | _, _, _ => Except.error PyErr.valueError
        else Except.error PyErr.valueError) := rfl
    rw [hfh] at h
    by_cases h0 : c0 = '#'
    · rw [if_pos h0] at h
      rcases hp1 : pyIntBase16 (String.mk [c1, c2]) with _ | r <;>
        rcases hp2 : pyIntBase16 (String.mk [c3, c4]) with _ | g <;>
          rcases hp3 : pyIntBase16 (String.mk [c5, c6]) with _ | b <;>
            rw [hp1, hp2, hp3] at h
      all_goals try exact Except.noConfusion h
      have h' : (⟨(r : ℚ), (g : ℚ), (b : ℚ)⟩ : Color) = c := Except.ok.inj h
      obtain ⟨b1r, b2r⟩ := pyIntBase16_pair_bound c1 c2 r hp1
      obtain ⟨b1g, b2g⟩ := pyIntBase16_pair_bound c3 c4 g hp2
      obtain ⟨b1b, b2b⟩ := pyIntBase16_pair_bound c5 c6 b hp3
      subst h'
      refine ⟨rfl, ?_, ⟨?_, ?_⟩, ⟨?_, ?_⟩, ⟨?_, ?_⟩⟩
      · rw [h0]
        rfl
      · show -15 ≤ ((r : ℤ) : ℚ)
        exact_mod_cast b1r
      · show ((r : ℤ) : ℚ) ≤ 255
        exact_mod_cast b2r
      · show -15 ≤ ((g : ℤ) : ℚ)
        exact_mod_cast b1g
      · show ((g : ℤ) : ℚ) ≤ 255
        exact_mod_cast b2g
      · show -15 ≤ ((b : ℤ) : ℚ)
        exact_mod_cast b1b
      · show ((b : ℤ) : ℚ) ≤ 255
        exact_mod_cast b2b
    · rw [if_neg h0] at h
      simp at h
  · rw [show Color.from_hex ⟨c0 :: c1 :: c2 :: c3 :: c4 :: c5 :: c6 :: c7 :: rest⟩ =
        .error .valueError from rfl] at h
    simp at h

/-- Witness for C5 at the concrete input `"#0a0b0c"`. -/
theorem C5_parse_result_witness :
    Color.from_hex "#0a0b0c" = .ok ⟨10, 11, 12⟩ ∧
    ("#0a0b0c" : String).data.length = 7 ∧
    ("#0a0b0c" : String).data.head? = some '#' ∧
    (-15 ≤ (⟨10, 11, 12⟩ : Color).r ∧ (⟨10, 11, 12⟩ : Color).r ≤ 255) ∧
    (-15 ≤ (⟨10, 11, 12⟩ : Color).g ∧ (⟨10, 11, 12⟩ : Color).g ≤ 255) ∧
    (-15 ≤ (⟨10, 11, 12⟩ : Color).b ∧ (⟨10, 11, 12⟩ : Color).b ≤ 255) :=
  ⟨by decide, C5_parse_result "#0a0b0c" ⟨10, 11, 12⟩ (by decide)⟩

/-- Counterexample to C5 as stated: `"#-1-2-3"` is 7 characters long and
starts with `#`, but its last six characters are not all hexadecimal digits
(`'-'` is not a hex digit) — yet parsing succeeds, and the resulting channels
are negative rather than in `[0, 255]`. -/
theorem C5_counterexample :
    Color.from_hex "#-1-2-3" = .ok ⟨-1, -2, -3⟩ ∧
    isHexDigit '-' = false ∧ ¬ (0 : ℚ) ≤ (-1 : ℚ) := by
  refine ⟨by decide, by decide, by decide⟩

/-- Claim C6 (amended): for every `Color` whose channels round into the
0–255 range (i.e. lie in `[-1/2, 255.5)`), `format()` rounds each channel to
the nearest integer (half up, Mathlib's `round`) and renders each channel as
exactly two lowercase zero-padded hex digits, the whole prefixed with `#`.
For channels outside that range nothing is clamped: the hex rendering simply
widens or carries a minus sign (see the counterexample). -/
theorem C6_format_in_range (c : Color)
    (hr1 : -(1/2) ≤ c.r) (hr2 : c.r < 255 + 1/2)
    (hg1 : -(1/2) ≤ c.g) (hg2 : c.g < 255 + 1/2)
    (hb1 : -(1/2) ≤ c.b) (hb2 : c.b < 255 + 1/2) :
    (Color.toStr c).data =
      '#' :: (fmt02x (round c.r) ++ fmt02x (round c.g) ++ fmt02x (round c.b)) ∧
    (fmt02x (round c.r)).length = 2 ∧
    (fmt02x (round c.g)).length = 2 ∧
    (fmt02x (round c.b)).length = 2 ∧
    (Color.toStr c).data.tail.all isLowerHexChar = true := by
  have er := pyRound_eq_round c.r hr1
  have eg := pyRound_eq_round c.g hg1
  have eb := pyRound_eq_round c.b hb1
  obtain ⟨r0, r255⟩ := pyRound_mem_range c.r hr1 hr2
  obtain ⟨g0, g255⟩ := pyRound_mem_range c.g hg1 hg2
  obtain ⟨b0, b255⟩ := pyRound_mem_range c.b hb1 hb2
  rw [er] at r0 r255
  rw [eg] at g0 g255
  rw [eb] at b0 b255
  obtain ⟨lenr, hexr⟩ := fmt02x_of_range (round c.r) r0 r255
  obtain ⟨leng, hexg⟩ := fmt02x_of_range (round c.g) g0 g255
  obtain ⟨lenb, hexb⟩ := fmt02x_of_range (round c.b) b0 b255
  have hdata : (Color.toStr c).data =
      '#' :: (fmt02x (round c.r) ++ fmt02x (round c.g) ++ fmt02x (round c.b)) := by
    rw [Color.toStr, er, eg, eb]
    rfl
  refine ⟨hdata, lenr, leng, lenb, ?_⟩
  rw [hdata]
  simp only [List.tail_cons, List.all_append, hexr, hexg, hexb, Bool.and_true]

/-- Witness for C6 at the concrete input `Color(0, 0, 0)`. -/
theorem C6_format_in_range_witness :
    -(1/2) ≤ ((0 : ℚ)) ∧ ((0 : ℚ)) < 255 + 1/2 ∧
    ((Color.toStr ⟨0, 0, 0⟩).data =
      '#' :: (fmt02x (round ((⟨0, 0, 0⟩ : Color).r)) ++ fmt02x (round ((⟨0, 0, 0⟩ : Color).g) ) ++
        fmt02x (round ((⟨0, 0, 0⟩ : Color).b))) ∧
     (fmt02x (round ((⟨0, 0, 0⟩ : Color).r))).length = 2 ∧
     (fmt02x (round ((⟨0, 0, 0⟩ : Color).g))).length = 2 ∧
     (fmt02x (round ((⟨0, 0, 0⟩ : Color).b))).length = 2 ∧
     (Color.toStr ⟨0, 0, 0⟩).data.tail.all isLowerHexChar = true) :=
  ⟨neg_nonpos.mpr one_half_pos.le,
   add_pos (by decide : (0 : ℚ) < 255) one_half_pos,
   C6_format_in_range ⟨0, 0, 0⟩
     (neg_nonpos.mpr one_half_pos.le) (add_pos (by decide : (0 : ℚ) < 255) one_half_pos)
     (neg_nonpos.mpr one_half_pos.le) (add_pos (by decide : (0 : ℚ) < 255) one_half_pos)
     (neg_nonpos.mpr one_half_pos.le) (add_pos (by decide : (0 : ℚ) < 255) one_half_pos)⟩

/-- Counterexample to C6 as stated: the channel value 300 is not clamped at
format time; it renders as the three hex digits `12c`, so the output is
`"#12c0000"` (8 characters), not the clamped `"#ff0000"`. -/
theorem C6_counterexample :
    Color.toStr ⟨300, 0, 0⟩ = "#12c0000" ∧
    Color.toStr ⟨300, 0, 0⟩ ≠ "#ff0000" ∧
    (Color.toStr ⟨300, 0, 0⟩).data.length ≠ 7 := by
  have h1 : pyRound 300 = 300 := by
    norm_num [pyRound, pyTrunc]
    decide
  have h2 : pyRound 0 = 0 := by
    norm_num [pyRound, pyTrunc]
    decide
  have hs : Color.toStr ⟨300, 0, 0⟩ = "#12c0000" := by
    simp only [Color.toStr, h1, h2]
    decide
  exact ⟨hs, by rw [hs]; decide, by rw [hs]; decide⟩

set_option maxRecDepth 8192 in
/-- The 256 lowercase two-digit groups: parsing gives `16·hi + lo` and
formatting that value gives back the two characters. -/
theorem lhexPair_ok : ∀ a ∈ lhexChars, ∀ b ∈ lhexChars,
    pyIntBase16 (String.mk [a, b]) = some ((16 * lhexVal a + lhexVal b : ℕ) : ℤ) ∧
    fmt02x ((16 * lhexVal a + lhexVal b : ℕ) : ℤ) = [a, b] := by
  decide

/-- Claim C7: for every 7-character string consisting of `#` followed by six
lowercase hexadecimal digits, formatting the parsed `Color` returns the
original string. -/
theorem C7_roundtrip (c1 c2 c3 c4 c5 c6 : Char)
    (h1 : c1 ∈ lhexChars) (h2 : c2 ∈ lhexChars) (h3 : c3 ∈ lhexChars)
    (h4 : c4 ∈ lhexChars) (h5 : c5 ∈ lhexChars) (h6 : c6 ∈ lhexChars) :
    (Color.from_hex (String.mk ['#', c1, c2, c3, c4, c5, c6])).map Color.toStr =
      .ok (String.mk ['#', c1, c2, c3, c4, c5, c6]) := by
  obtain ⟨hp1, hf1⟩ := lhexPair_ok c1 h1 c2 h2
  obtain ⟨hp2, hf2⟩ := lhexPair_ok c3 h3 c4 h4
  obtain ⟨hp3, hf3⟩ := lhexPair_ok c5 h5 c6 h6
  have hfh : Color.from_hex (String.mk ['#', c1, c2, c3, c4, c5, c6]) =
      (match pyIntBase16 (String.mk [c1, c2]), pyIntBase16 (String.mk [c3, c4]),
             pyIntBase16 (String.mk [c5, c6]) with
       | some r, some g, some b => Except.ok (⟨(r : ℚ), (g : ℚ), (b : ℚ)⟩ : Color)
       | _, _, _ => Except.error PyErr.valueError) := rfl
  rw [hfh, hp1, hp2, hp3]
  have hr := pyRound_intCast ((16 * lhexVal c1 + lhexVal c2 : ℕ) : ℤ) (Int.natCast_nonneg _)
  have hg := pyRound_intCast ((16 * lhexVal c3 + lhexVal c4 : ℕ) : ℤ) (Int.natCast_nonneg _)
  have hb := pyRound_intCast ((16 * lhexVal c5 + lhexVal c6 : ℕ) : ℤ) (Int.natCast_nonneg _)
  show Except.ok (Color.toStr _) = _
  rw [Color.toStr]
  show Except.ok (String.mk ('#' ::
    fmt02x (pyRound ((16 * lhexVal c1 + lhexVal c2 : ℕ) : ℤ)) ++
    fmt02x (pyRound ((16 * lhexVal c3 + lhexVal c4 : ℕ) : ℤ)) ++
    fmt02x (pyRound ((16 * lhexVal c5 + lhexVal c6 : ℕ) : ℤ)))) = _
  rw [hr, hg, hb, hf1, hf2, hf3]
  rfl

/-- Witness for C7 at the concrete input `"#1a2b3c"`. -/
theorem C7_roundtrip_witness :
    '1' ∈ lhexChars ∧
    (Color.from_hex (String.mk ['#', '1', 'a', '2', 'b', '3', 'c'])).map Color.toStr =
      .ok (String.mk ['#', '1', 'a', '2', 'b', '3', 'c']) :=
  ⟨by decide,
   C7_roundtrip '1' 'a' '2' 'b' '3' 'c' (by decide) (by decide) (by decide)
     (by decide) (by decide) (by decide)⟩

end ColorClaims

section ScaleClaims

theorem lastStop_nil (a : SStop) : lastStop a [] = a := rfl

theorem lastStop_cons (a b : SStop) (l : List SStop) :
    lastStop a (b :: l) = lastStop b l := by
  rw [lastStop, lastStop, List.getLast_cons]

/-- Characterization of the ascending bracketing scan: it splits the scanned
stops at the first one whose value is ≥ v, every stop strictly before the
split is < v and becomes the new `lb` in turn, and the scan returns the last
such stop together with the splitting stop. -/
theorem bracket_spec (v : ℚ) (rest : List SStop) :
    ∀ lb : SStop, (∃ u ∈ rest, v ≤ u.value) →
    ∃ mid ub post, rest = mid ++ ub :: post ∧
      (∀ x ∈ mid, x.value < v) ∧ v ≤ ub.value ∧
      Scale.bracket v lb rest = (lastStop lb mid, ub) := by
  induction rest with
  | nil =>
    intro lb h
    simp at h
  | cons u rs ih =>
    intro lb h
    by_cases hu : v ≤ u.value
    · refine ⟨[], u, rs, rfl, by simp, hu, ?_⟩
      rw [show Scale.bracket v lb (u :: rs) =
            (if v ≤ u.value then (lb, u) else Scale.bracket v u rs) from rfl,
          if_pos hu, lastStop_nil]
    · have hex : ∃ w ∈ rs, v ≤ w.value := by
        rcases h with ⟨w, hw, hvw⟩
        rcases List.mem_cons.mp hw with hw | hw
        · exact absurd (hw ▸ hvw) hu
        · exact ⟨w, hw, hvw⟩
      obtain ⟨mid, ub, post, hrest, hmid, hub, hbr⟩ := ih u hex
      refine ⟨u :: mid, ub, post, by simp [hrest], ?_, hub, ?_⟩
      · intro x hx
        rcases List.mem_cons.mp hx with hx | hx
        · rw [hx]
          exact lt_of_not_le hu
        · exact hmid x hx
      · rw [show Scale.bracket v lb (u :: rs) =
              (if v ≤ u.value then (lb, u) else Scale.bracket v u rs) from rfl,
            if_neg hu, hbr, lastStop_cons]

/-- `style` on a scale with a nonempty stop list dispatches to `styleCore`. -/
theorem style_eq_core (s : Scale) (first : SStop) (rest : List SStop) (value : ℚ)
    (hstops : s.stops = first :: rest) :
    s.style value = Scale.styleCore s.use_abs first rest value := by
  rw [Scale.style.eq_def, hstops]

/-- Claim C1 (amended): for every scale with at least two stops and every
value `v` between the first and last stop values (after taking the absolute
value when `use_abs` is set), `style v` brackets `v` by the ascending scan —
`lb` starts at the first stop, every subsequent stop with value < v advances
`lb`, and the first subsequent stop with value ≥ v becomes `ub` — computes
`p = (v - lb.value)/(ub.value - lb.value)`, and returns the component-wise
color blend `p·ub.color + (1-p)·lb.color` (a constructed stop always defines
a color), together with `size = p·ub.size + (1-p)·lb.size` when both
bracketing sizes are Python-truthy (present *and nonzero*) and no size
otherwise.  Amendment: the code tests float truthiness, not presence, of the
sizes, so a stop size of 0 suppresses the size (see the counterexample). -/
theorem C1_style_brackets (s : Scale) (value : ℚ) (first : SStop)
    (rest : List SStop) (hstops : s.stops = first :: rest) (hne : rest ≠ [])
    (hlo : first.value ≤ (if s.use_abs then |value| else value))
    (hhi : (if s.use_abs then |value| else value) ≤ (lastStop first rest).value) :
    ∃ mid ub post lb p,
      rest = mid ++ ub :: post ∧
      lb = lastStop first mid ∧
      (∀ x ∈ mid, x.value < (if s.use_abs then |value| else value)) ∧
      (if s.use_abs then |value| else value) ≤ ub.value ∧
      p = ((if s.use_abs then |value| else value) - lb.value) / (ub.value - lb.value) ∧
      s.style value =
        (some (p * ub.color + (1 - p) * lb.color),
         if pyTruthyOpt lb.size && pyTruthyOpt ub.size then
           some (p * ub.size.getD 0 + (1 - p) * lb.size.getD 0)
         else none) := by
  have hlast_mem : lastStop first rest ∈ rest := by
    rw [lastStop, List.getLast_cons hne]
    exact List.getLast_mem hne
  obtain ⟨mid, ub, post, hrest, hmid, hub, hbr⟩ :=
    bracket_spec (if s.use_abs then |value| else value) rest first
      ⟨lastStop first rest, hlast_mem, hhi⟩
  refine ⟨mid, ub, post, lastStop first mid,
    ((if s.use_abs then |value| else value) - (lastStop first mid).value) /
      (ub.value - (lastStop first mid).value),
    hrest, rfl, hmid, hub, rfl, ?_⟩
  rw [style_eq_core s first rest value hstops]
  simp only [Scale.styleCore]
  rw [if_neg (not_lt.mpr hlo), if_neg (not_lt.mpr hhi), hbr]

/-- Witness for C1 on the two-stop scale `{0: (#c8c8c8, 12), 100: (#ff0000,
25)}` at value 50 (the §8 scenario of the spec). -/
theorem C1_style_brackets_witness :
    ((⟨[⟨0, ⟨200, 200, 200⟩, some 12⟩, ⟨100, ⟨255, 0, 0⟩, some 25⟩], false⟩ : Scale).stops =
      ⟨0, ⟨200, 200, 200⟩, some 12⟩ :: [⟨100, ⟨255, 0, 0⟩, some 25⟩]) ∧
    (∃ mid ub post lb p,
      [(⟨100, ⟨255, 0, 0⟩, some 25⟩ : SStop)] = mid ++ ub :: post ∧
      lb = lastStop ⟨0, ⟨200, 200, 200⟩, some 12⟩ mid ∧
      (∀ x ∈ mid, x.value <
        (if (⟨[⟨0, ⟨200, 200, 200⟩, some 12⟩, ⟨100, ⟨255, 0, 0⟩, some 25⟩], false⟩ : Scale).use_abs
         then |(50 : ℚ)| else 50)) ∧
      (if (⟨[⟨0, ⟨200, 200, 200⟩, some 12⟩, ⟨100, ⟨255, 0, 0⟩, some 25⟩], false⟩ : Scale).use_abs
       then |(50 : ℚ)| else 50) ≤ ub.value ∧
      p = ((if (⟨[⟨0, ⟨200, 200, 200⟩, some 12⟩, ⟨100, ⟨255, 0, 0⟩, some 25⟩], false⟩ : Scale).use_abs
            then |(50 : ℚ)| else 50) - lb.value) / (ub.value - lb.value) ∧
      (⟨[⟨0, ⟨200, 200, 200⟩, some 12⟩, ⟨100, ⟨255, 0, 0⟩, some 25⟩], false⟩ : Scale).style 50 =
        (some (p * ub.color + (1 - p) * lb.color),
         if pyTruthyOpt lb.size && pyTruthyOpt ub.size then
           some (p * ub.size.getD 0 + (1 - p) * lb.size.getD 0)
         else none)) :=
  ⟨rfl, C1_style_brackets ⟨[⟨0, ⟨200, 200, 200⟩, some 12⟩, ⟨100, ⟨255, 0, 0⟩, some 25⟩], false⟩
    50 ⟨0, ⟨200, 200, 200⟩, some 12⟩ [⟨100, ⟨255, 0, 0⟩, some 25⟩]
    rfl (by decide) (by decide) (by decide)⟩

/-- Counterexample to C1 as stated: on the scale `{0: (#000000, size 0),
10: (#ffffff, size 10)}` both bracketing stops *define* a size (0 and 10),
so the claim predicts the interpolated size `5` at value 5 — but the code's
truthiness test treats the size 0 as absent and returns no size. -/
theorem C1_counterexample :
    ((⟨0, ⟨0, 0, 0⟩, some 0⟩ : SStop).size.isSome = true ∧
     (⟨10, ⟨255, 255, 255⟩, some 10⟩ : SStop).size.isSome = true) ∧
    (Scale.style ⟨[⟨0, ⟨0, 0, 0⟩, some 0⟩, ⟨10, ⟨255, 255, 255⟩, some 10⟩], false⟩ 5).2 =
      none ∧
    (Scale.style ⟨[⟨0, ⟨0, 0, 0⟩, some 0⟩, ⟨10, ⟨255, 255, 255⟩, some 10⟩], false⟩ 5).2 ≠
      some ((5 - 0) / (10 - 0) * 10 + (1 - (5 - 0) / (10 - 0)) * 0) := by
  have hstyle : Scale.style ⟨[⟨0, ⟨0, 0, 0⟩, some 0⟩, ⟨10, ⟨255, 255, 255⟩, some 10⟩], false⟩ 5 =
      Scale.styleCore false ⟨0, ⟨0, 0, 0⟩, some 0⟩ [⟨10, ⟨255, 255, 255⟩, some 10⟩] 5 :=
    style_eq_core _ _ _ _ rfl
  have hcore : (Scale.styleCore false ⟨0, ⟨0, 0, 0⟩, some 0⟩
      [⟨10, ⟨255, 255, 255⟩, some 10⟩] 5).2 = none := by
    simp only [Scale.styleCore]
    norm_num [Scale.bracket, lastStop, pyTruthyOpt]
  refine ⟨⟨rfl, rfl⟩, ?_, ?_⟩
  · rw [hstyle]
    exact hcore
  · rw [hstyle, hcore]
    simp

/-- Claim C2 (amended): `Scale.__init__` performs no validation at all —
there is no ConfigurationError in the code, no stop-count check, and no
color/size-consistency check (see the counterexample); the only construction
failures come from `Color.from_hex`.  The part of the claim that holds: a
successful construction stores the stops sorted ascending by value and
records the `use_abs` flag. -/
theorem C2_init_sorted (stops : List (ℚ × Option String × Option ℚ)) (ua : Bool)
    (s : Scale) (h : Scale.init stops ua = .ok s) :
    s.stops.Pairwise (fun a b => a.value ≤ b.value) ∧ s.use_abs = ua := by
  rw [Scale.init] at h
  rcases hm : stops.mapM Scale.initStop with e | parsed
  · rw [hm] at h
    exact Except.noConfusion h
  · rw [hm] at h
    have h' : (⟨parsed.mergeSort (fun a b => decide (a.value ≤ b.value)), ua⟩ : Scale) = s :=
      Except.ok.inj h
    subst h'
    refine ⟨?_, rfl⟩
    have hs := @List.sorted_mergeSort SStop
      (fun a b : SStop => decide (a.value ≤ b.value))
      (fun a b c h1 h2 => by
        simp only [decide_eq_true_eq] at h1 h2 ⊢
        exact le_trans h1 h2)
      (fun a b => by
        rcases le_total a.value b.value with hab | hab <;> simp [hab])
      parsed
    exact hs.imp (fun hab => of_decide_eq_true hab)

/-- Witness for C2 on a concrete two-stop construction (stops supplied in
descending order come out ascending). -/
theorem C2_init_sorted_witness :
    Scale.init [(100, some "#ff0000", some 25), (0, some "#c8c8c8", some 12)] true =
      .ok ⟨[⟨0, ⟨200, 200, 200⟩, some 12⟩, ⟨100, ⟨255, 0, 0⟩, some 25⟩], true⟩ ∧
    ((⟨[⟨0, ⟨200, 200, 200⟩, some 12⟩, ⟨100, ⟨255, 0, 0⟩, some 25⟩], true⟩ : Scale).stops.Pairwise
        (fun a b => a.value ≤ b.value) ∧
      (⟨[⟨0, ⟨200, 200, 200⟩, some 12⟩, ⟨100, ⟨255, 0, 0⟩, some 25⟩], true⟩ : Scale).use_abs =
        true) := by
  have hinit : Scale.init [(100, some "#ff0000", some 25), (0, some "#c8c8c8", some 12)] true =
      .ok ⟨[⟨0, ⟨200, 200, 200⟩, some 12⟩, ⟨100, ⟨255, 0, 0⟩, some 25⟩], true⟩ := by
    have h1 : Color.from_hex "#ff0000" = .ok ⟨255, 0, 0⟩ := by decide
    have h2 : Color.from_hex "#c8c8c8" = .ok ⟨200, 200, 200⟩ := by decide
    simp [Scale.init, Scale.initStop, h1, h2, List.mapM, List.mapM.loop, List.mergeSort,
      Except.map, Except.bind, bind, Functor.map, List.merge, pure, Except.pure]
  exact ⟨hinit, C2_init_sorted _ true _ hinit⟩

/-- Counterexample to C2 as stated: a scale built from a *single* stop
constructs without any error, and so does one whose stops inconsistently
define size (present on one stop, absent on the other) — no
ConfigurationError is raised at construction time. -/
theorem C2_counterexample :
    Scale.init [(0, some "#000000", some 1)] false =
      .ok ⟨[⟨0, ⟨0, 0, 0⟩, some 1⟩], false⟩ ∧
    Scale.init [(0, some "#000000", some 12), (1, some "#ffffff", none)] false =
      .ok ⟨[⟨0, ⟨0, 0, 0⟩, some 12⟩, ⟨1, ⟨255, 255, 255⟩, none⟩], false⟩ := by
  have h0 : Color.from_hex "#000000" = .ok ⟨0, 0, 0⟩ := by decide
  have h1 : Color.from_hex "#ffffff" = .ok ⟨255, 255, 255⟩ := by decide
  constructor <;>
    simp [Scale.init, Scale.initStop, h0, h1, List.mapM, List.mapM.loop, List.mergeSort,
      Except.map, Except.bind, bind, Functor.map, List.merge, pure, Except.pure]

end ScaleClaims

section XmlLemmas

theorem lookup_setPairs_self (l : List (String × AVal)) (k : String) (v : AVal) :
    (setPairs l k v).lookup k = some v := by
  induction l with
  | nil => simp [setPairs, List.lookup]
  | cons p rest ih =>
    obtain ⟨k', v'⟩ := p
    rw [setPairs]
    by_cases hk : k' = k
    · rw [if_pos hk]
      simp [List.lookup]
    · rw [if_neg hk]
      have hne : (k == k') = false := by
        simp
        exact fun hh => hk hh.symm
      simp [List.lookup, hne]
      exact ih

theorem lookup_setPairs_other (l : List (String × AVal)) (k k' : String) (v : AVal)
    (h : k ≠ k') : (setPairs l k' v).lookup k = l.lookup k := by
  induction l with
  | nil =>
    have hne : (k == k') = false := by simp [h]
    simp [setPairs, List.lookup, hne]
  | cons p rest ih =>
    obtain ⟨k0, v0⟩ := p
    rw [setPairs]
    by_cases hk : k0 = k'
    · rw [if_pos hk]
      have hne : (k == k') = false := by simp [h]
      subst hk
      simp [List.lookup, hne]
    · rw [if_neg hk]
      by_cases hkk : k0 = k
      · subst hkk
        simp [List.lookup]
      · have hne : (k == k0) = false := by
          simp
          exact fun hh => hkk hh.symm
        simp [List.lookup, hne]
        exact ih

theorem getAttr_setAttr_self (x : XML) (k : String) (v : AVal) :
    (x.setAttr k v).getAttr k = some v := by
  rw [XML.setAttr, XML.getAttr, XML.attrs]
  exact lookup_setPairs_self x.attrs k v

theorem getAttr_setAttr_other (x : XML) (k k' : String) (v : AVal) (h : k ≠ k') :
    (x.setAttr k' v).getAttr k = x.getAttr k := by
  rw [XML.setAttr, XML.getAttr, XML.attrs]
  exact lookup_setPairs_other x.attrs k k' v h

theorem descend_cons (x : XML) (i : ℕ) (rest : List ℕ) :
    XML.descend x (i :: rest) = (x.children[i]?).bind (fun c => XML.descend c rest) := by
  rw [XML.descend]
  rcases x.children[i]? with _ | c <;> simp

end XmlLemmas

section SegmentClaims

/-- Claim C3 (amended): after `MapSegment.__init__`, whenever either input
endpoint is a metabolite, the constructed segment's `to` endpoint is a
metabolite; when the metabolite arrived as `from` the endpoints and the
control points `b1`/`b2` are swapped, and otherwise everything is kept in
place.  In particular, when exactly one endpoint is a metabolite, that
metabolite is the `to` endpoint.  The amendment: if *both* endpoints are
metabolites the swap still fires (the original `to` metabolite ends up as
`from`), so the original claim's "that metabolite is the `to` endpoint" fails
for one of the two (see the counterexample). -/
theorem C3_normalized (stoich : List (String × ℚ)) (reversible : Bool)
    (from0 to0 : MapNode) (b1 b2 : Option (ℚ × ℚ)) (seg : MapSegment)
    (h : MapSegment.init stoich reversible from0 to0 b1 b2 = .ok seg) :
    ((from0.isMetabolite || to0.isMetabolite) = true → seg.to_node.isMetabolite = true) ∧
    (from0.isMetabolite = true →
      seg.to_node = from0 ∧ seg.from_node = to0 ∧ seg.b1 = b2 ∧ seg.b2 = b1) ∧
    (from0.isMetabolite = false →
      seg.from_node = from0 ∧ seg.to_node = to0 ∧ seg.b1 = b1 ∧ seg.b2 = b2) := by
  cases from0 with
  | metabolite mf =>
    rw [show MapSegment.init stoich reversible (.metabolite mf) to0 b1 b2 =
          (match stoich.lookup mf.metabolite_id with
           | none => .error .keyError
           | some cnt =>
             .ok ⟨to0, .metabolite mf, b2, b1, some mf.metabolite_id, some cnt,
                  decide (cnt > 0) || reversible⟩) from rfl] at h
    rcases hlk : stoich.lookup mf.metabolite_id with _ | cnt <;> rw [hlk] at h
    · exact Except.noConfusion h
    · have h' := Except.ok.inj h
      subst h'
      refine ⟨fun _ => rfl, fun _ => ⟨rfl, rfl, rfl, rfl⟩, fun hf => ?_⟩
      simp [MapNode.isMetabolite] at hf
  | connector cf =>
    cases to0 with
    | metabolite mt =>
      rw [show MapSegment.init stoich reversible (.connector cf) (.metabolite mt) b1 b2 =
            (match stoich.lookup mt.metabolite_id with
             | none => .error .keyError
             | some cnt =>
               .ok ⟨.connector cf, .metabolite mt, b1, b2, some mt.metabolite_id, some cnt,
                    decide (cnt > 0) || reversible⟩) from rfl] at h
      rcases hlk : stoich.lookup mt.metabolite_id with _ | cnt <;> rw [hlk] at h
      · exact Except.noConfusion h
      · have h' := Except.ok.inj h
        subst h'
        refine ⟨fun _ => rfl, fun hf => ?_, fun _ => ⟨rfl, rfl, rfl, rfl⟩⟩
        simp [MapNode.isMetabolite] at hf
    | connector ct =>
      have h' := Except.ok.inj h
      subst h'
      refine ⟨fun hf => ?_, fun hf => ?_, fun _ => ?_⟩
      · simp [MapNode.isMetabolite] at hf
      · simp [MapNode.isMetabolite] at hf
      · simp [MapNode.isMetabolite]

/-- Witness for C3: a metabolite arriving as the `from` endpoint of a segment
to a connector is swapped to the `to` endpoint, together with its control
points. -/
theorem C3_normalized_witness :
    MapSegment.init [("A", 1)] false (.metabolite ⟨(0, 0), "A", true, (1, 1)⟩)
        (.connector (5, 5)) (some (2, 2)) (some (3, 3)) =
      .ok ⟨.connector (5, 5), .metabolite ⟨(0, 0), "A", true, (1, 1)⟩,
           some (3, 3), some (2, 2), some "A", some 1, true⟩ ∧
    (((MapNode.metabolite ⟨(0, 0), "A", true, (1, 1)⟩).isMetabolite ||
        (MapNode.connector (5, 5)).isMetabolite) = true →
      (MapSegment.to_node ⟨.connector (5, 5), .metabolite ⟨(0, 0), "A", true, (1, 1)⟩,
        some (3, 3), some (2, 2), some "A", some 1, true⟩).isMetabolite = true) ∧
    ((MapNode.metabolite ⟨(0, 0), "A", true, (1, 1)⟩).isMetabolite = true →
      (MapSegment.to_node ⟨.connector (5, 5), .metabolite ⟨(0, 0), "A", true, (1, 1)⟩,
          some (3, 3), some (2, 2), some "A", some 1, true⟩) =
        .metabolite ⟨(0, 0), "A", true, (1, 1)⟩ ∧
      (MapSegment.from_node ⟨.connector (5, 5), .metabolite ⟨(0, 0), "A", true, (1, 1)⟩,
          some (3, 3), some (2, 2), some "A", some 1, true⟩) = .connector (5, 5) ∧
      (MapSegment.b1 ⟨.connector (5, 5), .metabolite ⟨(0, 0), "A", true, (1, 1)⟩,
          some (3, 3), some (2, 2), some "A", some 1, true⟩) = some (3, 3) ∧
      (MapSegment.b2 ⟨.connector (5, 5), .metabolite ⟨(0, 0), "A", true, (1, 1)⟩,
          some (3, 3), some (2, 2), some "A", some 1, true⟩) = some (2, 2)) :=
  ⟨by decide,
   (C3_normalized [("A", 1)] false (.metabolite ⟨(0, 0), "A", true, (1, 1)⟩)
     (.connector (5, 5)) (some (2, 2)) (some (3, 3)) _ (by decide)).1,
   (C3_normalized [("A", 1)] false (.metabolite ⟨(0, 0), "A", true, (1, 1)⟩)
     (.connector (5, 5)) (some (2, 2)) (some (3, 3)) _ (by decide)).2.1⟩

/-- Counterexample to C3 as stated: a segment whose endpoints are *both*
metabolites is swapped, so the metabolite that arrived as `to` ends up as the
`from` endpoint — a metabolite endpoint that is not the `to` endpoint. -/
theorem C3_counterexample :
    MapSegment.init [("A", 1), ("B", 1)] false
        (.metabolite ⟨(0, 0), "A", true, (0, 0)⟩)
        (.metabolite ⟨(5, 5), "B", true, (5, 5)⟩) none none =
      .ok ⟨.metabolite ⟨(5, 5), "B", true, (5, 5)⟩, .metabolite ⟨(0, 0), "A", true, (0, 0)⟩,
           none, none, some "A", some 1, true⟩ ∧
    (MapSegment.from_node ⟨.metabolite ⟨(5, 5), "B", true, (5, 5)⟩,
        .metabolite ⟨(0, 0), "A", true, (0, 0)⟩, none, none, some "A", some 1,
        true⟩).isMetabolite = true ∧
    MapSegment.from_node ⟨.metabolite ⟨(5, 5), "B", true, (5, 5)⟩,
        .metabolite ⟨(0, 0), "A", true, (0, 0)⟩, none, none, some "A", some 1, true⟩ ≠
      MapSegment.to_node ⟨.metabolite ⟨(5, 5), "B", true, (5, 5)⟩,
        .metabolite ⟨(0, 0), "A", true, (0, 0)⟩, none, none, some "A", some 1, true⟩ := by
  refine ⟨by decide, by decide, by decide⟩

end SegmentClaims

section ReactionClaims

/-- The direction rule at the level of one segment arc: when a direction
value and the segment's count are both available, the `marker-end` attribute
is set to the arrowhead reference exactly when `count * direction > 0` and
explicitly cleared (set to the empty string) otherwise, overriding whatever
the static `has_arrow` derivation placed there. -/
theorem arcFor_markerEnd (sq : ℚ → ℚ) (color : Option Color) (size : Option ℚ)
    (d cnt : ℚ) (seg : MapSegment) (hc : seg.count = some cnt) :
    (MapReaction.arcFor sq color size (some d) seg).getAttr "marker-end" =
      some (.s (if cnt * d > 0 then "url(#arrowhead)" else "")) := by
  simp only [MapReaction.arcFor, hc]
  by_cases hpos : cnt * d > 0
  · rw [if_pos hpos, if_pos hpos, getAttr_setAttr_self]
  · rw [if_neg hpos, if_neg hpos, getAttr_setAttr_self]

/-- The direction rule at the level of `MapReaction.to_svg`: the i-th child
of the rendered group is the i-th segment's arc, and when the segment's count
is available its `marker-end` follows the `count * direction > 0` rule. -/
theorem toSvg_arc_spec (sq : ℚ → ℚ) (rscale : Option Scale) (r : MapReaction)
    (value : Option ℚ) (d : ℚ) (i : ℕ) (seg : MapSegment) (cnt : ℚ)
    (hseg : r.segments[i]? = some seg) (hc : seg.count = some cnt) :
    ∃ arc, (MapReaction.to_svg sq rscale r value (some d)).children[i]? = some arc ∧
      arc.getAttr "marker-end" =
        some (.s (if cnt * d > 0 then "url(#arrowhead)" else "")) := by
  have hi : i < r.segments.length := by
    rcases Nat.lt_or_ge i r.segments.length with hlt | hge
    · exact hlt
    · rw [List.getElem?_eq_none hge] at hseg
      exact Option.noConfusion hseg
  have hch : (MapReaction.to_svg sq rscale r value (some d)).children =
      r.segments.map (MapReaction.arcFor sq (MapReaction.styleOf rscale value).1
        (MapReaction.styleOf rscale value).2 (some d)) ++
      [XML.elem "text" [("class", .s "label"), ("x", .q r.label_pos.1),
        ("y", .q r.label_pos.2)] (some (.s r.reaction_id)) []] := rfl
  refine ⟨_, ?_, arcFor_markerEnd sq (MapReaction.styleOf rscale value).1
    (MapReaction.styleOf rscale value).2 d cnt seg hc⟩
  rw [hch, List.getElem?_append_left (by simpa using hi), List.getElem?_map, hseg]
  rfl

/-- Claim C4: when a reaction is rendered with a direction overlay value
present, every segment whose signed count is available gets its arrowhead
from the direction rule: the arc carries `marker-end = "url(#arrowhead)"` if
`count * direction > 0` (equivalently, the signs agree) and carries an
explicitly emptied `marker-end` otherwise — even when the static `has_arrow`
derivation (count > 0 or reversible) would have attached one, since the
override rewrites the attribute unconditionally. -/
theorem C4_direction_rule (sq : ℚ → ℚ) (rscale : Option Scale) (r : MapReaction)
    (value : Option ℚ) (d : ℚ) (i : ℕ) (seg : MapSegment) (cnt : ℚ)
    (hseg : r.segments[i]? = some seg) (hc : seg.count = some cnt) :
    ∃ arc, (MapReaction.to_svg sq rscale r value (some d)).children[i]? = some arc ∧
      arc.getAttr "marker-end" =
        some (.s (if cnt * d > 0 then "url(#arrowhead)" else "")) :=
  toSvg_arc_spec sq rscale r value d i seg cnt hseg hc

/-- Witness for C4: a segment with count 1 whose static `has_arrow` is true
has its arrowhead suppressed by a direction value of -1. -/
theorem C4_direction_rule_witness :
    ((⟨"R", [("A", 1)], false, (0, 0),
        [⟨.connector (0, 0), .metabolite ⟨(0, 10), "A", false, (1, 1)⟩, none, none,
          some "A", some 1, true⟩]⟩ : MapReaction).segments[0]? =
      some ⟨.connector (0, 0), .metabolite ⟨(0, 10), "A", false, (1, 1)⟩, none, none,
        some "A", some 1, true⟩) ∧
    (∃ arc,
      (MapReaction.to_svg (fun _ => 10) none
          ⟨"R", [("A", 1)], false, (0, 0),
            [⟨.connector (0, 0), .metabolite ⟨(0, 10), "A", false, (1, 1)⟩, none, none,
              some "A", some 1, true⟩]⟩ none (some (-1))).children[0]? = some arc ∧
      arc.getAttr "marker-end" =
        some (.s (if (1 : ℚ) * (-1) > 0 then "url(#arrowhead)" else ""))) :=
  ⟨rfl,
   C4_direction_rule (fun _ => 10) none
     ⟨"R", [("A", 1)], false, (0, 0),
       [⟨.connector (0, 0), .metabolite ⟨(0, 10), "A", false, (1, 1)⟩, none, none,
         some "A", some 1, true⟩]⟩ none (-1) 0
     ⟨.connector (0, 0), .metabolite ⟨(0, 10), "A", false, (1, 1)⟩, none, none,
       some "A", some 1, true⟩ 1 rfl rfl⟩

/-- Claim C8 (amended): for a metabolite-ending segment rendered by
`MapSegment.to_svg` (no direction override applies at this level), a
stoichiometry label is emitted if and only if `abs(count) ≠ 1` (not
`abs(count) > 1`: a fractional or zero coefficient also gets a label — see
the counterexample); when emitted, the label is positioned at
`newEnd + (dy/L, -dx/L) * 24`, its text is the absolute coefficient, and its
class attribute is `"label stoich"` (the `stoich` class in addition to
`label`). -/
theorem C8_stoich_label (sq : ℚ → ℚ) (seg : MapSegment) (mid : String) (cnt : ℚ)
    (hm : seg.metabolite_id = some mid) (hc : seg.count = some cnt) :
    (|cnt| = 1 →
      MapSegment.to_svg sq seg = XML.elem "path" (seg.pathAttrs sq) none []) ∧
    (|cnt| ≠ 1 →
      MapSegment.to_svg sq seg =
        XML.elem "g" [] none
          [XML.elem "path" (seg.pathAttrs sq) none [],
           XML.elem "text"
             [("class", .s "label stoich"),
              ("x", .q ((seg.newEnd sq).1 + seg.dy / seg.segLen sq * 24)),
              ("y", .q ((seg.newEnd sq).2 - seg.dx / seg.segLen sq * 24))]
             (some (.q |cnt|)) []]) := by
  constructor
  · intro h1
    simp only [MapSegment.to_svg, hm, hc, Option.getD_some]
    rw [if_pos h1]
  · intro h1
    simp only [MapSegment.to_svg, hm, hc, Option.getD_some]
    rw [if_neg h1]

/-- Witness for C8: a segment with coefficient 3 gets a stoichiometry label
with text 3 at the perpendicular offset. -/
theorem C8_stoich_label_witness :
    ((⟨.connector (0, 0), .metabolite ⟨(0, 10), "A", false, (1, 1)⟩, none, none,
        some "A", some 3, true⟩ : MapSegment).metabolite_id = some "A") ∧
    |(3 : ℚ)| ≠ 1 ∧
    MapSegment.to_svg (fun _ => 10)
        ⟨.connector (0, 0), .metabolite ⟨(0, 10), "A", false, (1, 1)⟩, none, none,
          some "A", some 3, true⟩ =
      XML.elem "g" [] none
        [XML.elem "path"
           ((⟨.connector (0, 0), .metabolite ⟨(0, 10), "A", false, (1, 1)⟩, none, none,
              some "A", some 3, true⟩ : MapSegment).pathAttrs (fun _ => 10)) none [],
         XML.elem "text"
           [("class", .s "label stoich"),
            ("x", .q (((⟨.connector (0, 0), .metabolite ⟨(0, 10), "A", false, (1, 1)⟩,
              none, none, some "A", some 3, true⟩ : MapSegment).newEnd (fun _ => 10)).1 +
              (⟨.connector (0, 0), .metabolite ⟨(0, 10), "A", false, (1, 1)⟩, none, none,
                some "A", some 3, true⟩ : MapSegment).dy /
                (⟨.connector (0, 0), .metabolite ⟨(0, 10), "A", false, (1, 1)⟩, none, none,
                  some "A", some 3, true⟩ : MapSegment).segLen (fun _ => 10) * 24)),
            ("y", .q (((⟨.connector (0, 0), .metabolite ⟨(0, 10), "A", false, (1, 1)⟩,
              none, none, some "A", some 3, true⟩ : MapSegment).newEnd (fun _ => 10)).2 -
              (⟨.connector (0, 0), .metabolite ⟨(0, 10), "A", false, (1, 1)⟩, none, none,
                some "A", some 3, true⟩ : MapSegment).dx /
                (⟨.connector (0, 0), .metabolite ⟨(0, 10), "A", false, (1, 1)⟩, none, none,
                  some "A", some 3, true⟩ : MapSegment).segLen (fun _ => 10) * 24))]
           (some (.q |(3 : ℚ)|)) []] :=
  ⟨rfl, by decide,
   (C8_stoich_label (fun _ => 10)
     ⟨.connector (0, 0), .metabolite ⟨(0, 10), "A", false, (1, 1)⟩, none, none,
       some "A", some 3, true⟩ "A" 3 rfl rfl).2 (by decide)⟩

/-- Counterexample to C8 as stated: a constructed segment with the fractional
coefficient 1/2 — for which `abs(count) > 1` is false — still gets a
stoichiometry label, because the code emits the label whenever
`abs(count) ≠ 1`. -/
theorem C8_counterexample :
    MapSegment.init [("A", (⟨1, 2, by decide, by decide⟩ : ℚ))] false
        (.connector (0, 0)) (.metabolite ⟨(0, 10), "A", false, (1, 1)⟩) none none =
      .ok ⟨.connector (0, 0), .metabolite ⟨(0, 10), "A", false, (1, 1)⟩, none, none,
           some "A", some (⟨1, 2, by decide, by decide⟩ : ℚ), true⟩ ∧
    (⟨1, 2, by decide, by decide⟩ : ℚ) = 1 / 2 ∧
    ¬ |(⟨1, 2, by decide, by decide⟩ : ℚ)| > 1 ∧
    ((MapSegment.to_svg (fun _ => 10)
        ⟨.connector (0, 0), .metabolite ⟨(0, 10), "A", false, (1, 1)⟩, none, none,
         some "A", some (⟨1, 2, by decide, by decide⟩ : ℚ), true⟩).children[1]?).map
        (fun c => (c.getAttr "class", c.text)) =
      some (some (.s "label stoich"), some (.q |(⟨1, 2, by decide, by decide⟩ : ℚ)|)) := by
  refine ⟨by decide, ?_, by decide, ?_⟩
  · rw [Rat.mk'_eq_divInt, Rat.divInt_eq_div]
    norm_num
  have hne : ¬ |(⟨1, 2, by decide, by decide⟩ : ℚ)| = 1 := by decide
  simp only [MapSegment.to_svg, Option.getD_some]
  rw [if_neg hne]
  decide

end ReactionClaims

section MapClaims

theorem descend_single (x : XML) (j : ℕ) : XML.descend x [j] = x.children[j]? := by
  rw [descend_cons]
  rcases x.children[j]? with _ | c <;> simp [XML.descend]

/-- Claim C9 (amended): the reactions group's default stroke is the
de-emphasized (lighter `#eeeeee`, thinner `5`) variant exactly when the
reaction overlay mapping supplied for the call is *truthy* — i.e. supplied
and non-empty — regardless of whether any given reaction has a value in it,
and otherwise the standard `#334e75`/`10`; independently, the metabolites
group's defaults are `fill #eeeeee` / `stroke none` exactly when the
metabolite overlay mapping is truthy, and the standard `#e0865b`/`#a24510`
otherwise.  Amendment: supplying an *empty* mapping (`{}` is falsy in
Python) does not de-emphasize (see the counterexample). -/
theorem C9_group_defaults (sq : ℚ → ℚ) (m : EscherMap)
    (md rd rdir : Option (List (String × ℚ))) :
    ∃ rg mg,
      XML.descend (EscherMap.to_svg sq m md rd rdir) [1, 1] = some rg ∧
      XML.descend (EscherMap.to_svg sq m md rd rdir) [1, 2] = some mg ∧
      rg.getAttr "stroke" =
        some (.s (if pyTruthyDict rd then "#eeeeee" else "#334e75")) ∧
      rg.getAttr "stroke-width" =
        some (.s (if pyTruthyDict rd then "5" else "10")) ∧
      mg.getAttr "fill" =
        some (.s (if pyTruthyDict md then "#eeeeee" else "#e0865b")) ∧
      mg.getAttr "stroke" =
        some (.s (if pyTruthyDict md then "none" else "#a24510")) := by
  refine ⟨XML.elem "g" (reactionsGroupAttrs rd) none
      (m.reactions.map (fun r => MapReaction.to_svg sq m.reaction_scale r
        ((rd.getD []).lookup r.reaction_id) ((rdirOf rd rdir).lookup r.reaction_id))),
    XML.elem "g" (metabolitesGroupAttrs md) none
      (m.metabolites.map (fun mm => MetabData.to_svg m.metabolite_scale mm
        ((md.getD []).lookup mm.metabolite_id))),
    rfl, rfl, ?_, ?_, ?_, ?_⟩
  · cases h : pyTruthyDict rd <;>
      simp only [XML.getAttr, XML.attrs, reactionsGroupAttrs, h] <;> decide
  · cases h : pyTruthyDict rd <;>
      simp only [XML.getAttr, XML.attrs, reactionsGroupAttrs, h] <;> decide
  · cases h : pyTruthyDict md <;>
      simp only [XML.getAttr, XML.attrs, metabolitesGroupAttrs, h] <;> decide
  · cases h : pyTruthyDict md <;>
      simp only [XML.getAttr, XML.attrs, metabolitesGroupAttrs, h] <;> decide

/-- Counterexample to C9 as stated: supplying an *empty* reaction overlay
mapping leaves the reactions group at the standard (non-de-emphasized)
stroke, because `if reaction_data:` is false for an empty dict. -/
theorem C9_counterexample :
    pyTruthyDict (some ([] : List (String × ℚ))) = false ∧
    (∃ rg,
      XML.descend (EscherMap.to_svg (fun _ => 0) emptyMap none (some []) none) [1, 1] =
        some rg ∧
      rg.getAttr "stroke" = some (.s "#334e75") ∧
      rg.getAttr "stroke-width" = some (.s "10")) ∧
    ("#334e75" : String) ≠ "#eeeeee" := by
  refine ⟨rfl, ⟨_, rfl, ?_, ?_⟩, by decide⟩ <;> decide

/-- Claim C10: when a render call supplies a reaction values mapping but no
reaction direction mapping, the values mapping itself is used as the
direction mapping, so every reaction with an entry gets the direction rule
with its own data value: each metabolite segment's arc carries
`marker-end = "url(#arrowhead)"` exactly when `count * value > 0`, and an
explicitly emptied `marker-end` otherwise. -/
theorem C10_data_defaults_direction (sq : ℚ → ℚ) (m : EscherMap)
    (md : Option (List (String × ℚ))) (rd : List (String × ℚ))
    (i j : ℕ) (r : MapReaction) (seg : MapSegment) (v cnt : ℚ)
    (hr : m.reactions[i]? = some r) (hv : rd.lookup r.reaction_id = some v)
    (hseg : r.segments[j]? = some seg) (hc : seg.count = some cnt) :
    ∃ arc,
      XML.descend (EscherMap.to_svg sq m md (some rd) none) [1, 1, i, j] = some arc ∧
      arc.getAttr "marker-end" =
        some (.s (if cnt * v > 0 then "url(#arrowhead)" else "")) := by
  have hdir : (rdirOf (some rd) none).lookup r.reaction_id = some v := hv
  obtain ⟨arc, harc, hmark⟩ :=
    toSvg_arc_spec sq m.reaction_scale r (rd.lookup r.reaction_id) v j seg cnt hseg hc
  refine ⟨arc, ?_, hmark⟩
  have h1 : XML.descend (EscherMap.to_svg sq m md (some rd) none) [1, 1, i, j] =
      XML.descend (XML.elem "g" (reactionsGroupAttrs (some rd)) none
        (m.reactions.map (fun rr => MapReaction.to_svg sq m.reaction_scale rr
          (rd.lookup rr.reaction_id)
          ((rdirOf (some rd) none).lookup rr.reaction_id)))) [i, j] := rfl
  rw [h1, descend_cons, XML.children, List.getElem?_map, hr]
  simp only [Option.map_some', Option.some_bind]
  rw [descend_single, hdir]
  exact harc

/-- Witness for C10: a map with one reaction carrying data value 1 and a
segment with count 1 (no direction mapping supplied) gets an arrowhead from
the sign rule applied to the data value itself. -/
theorem C10_data_defaults_direction_witness :
    ((⟨"None", "None", none, none, (0, 0), (100, 100), [],
        [⟨"R", [("A", 1)], false, (0, 0),
          [⟨.connector (0, 0), .metabolite ⟨(0, 10), "A", false, (1, 1)⟩, none, none,
            some "A", some 1, true⟩]⟩]⟩ : EscherMap).reactions[0]? =
      some ⟨"R", [("A", 1)], false, (0, 0),
        [⟨.connector (0, 0), .metabolite ⟨(0, 10), "A", false, (1, 1)⟩, none, none,
          some "A", some 1, true⟩]⟩) ∧
    (∃ arc,
      XML.descend (EscherMap.to_svg (fun _ => 10)
          ⟨"None", "None", none, none, (0, 0), (100, 100), [],
            [⟨"R", [("A", 1)], false, (0, 0),
              [⟨.connector (0, 0), .metabolite ⟨(0, 10), "A", false, (1, 1)⟩, none, none,
                some "A", some 1, true⟩]⟩]⟩ none (some [("R", 1)]) none) [1, 1, 0, 0] =
        some arc ∧
      arc.getAttr "marker-end" =
        some (.s (if (1 : ℚ) * 1 > 0 then "url(#arrowhead)" else ""))) :=
  ⟨rfl,
   C10_data_defaults_direction (fun _ => 10)
     ⟨"None", "None", none, none, (0, 0), (100, 100), [],
       [⟨"R", [("A", 1)], false, (0, 0),
         [⟨.connector (0, 0), .metabolite ⟨(0, 10), "A", false, (1, 1)⟩, none, none,
           some "A", some 1, true⟩]⟩]⟩ none [("R", 1)] 0 0
     ⟨"R", [("A", 1)], false, (0, 0),
       [⟨.connector (0, 0), .metabolite ⟨(0, 10), "A", false, (1, 1)⟩, none, none,
         some "A", some 1, true⟩]⟩
     ⟨.connector (0, 0), .metabolite ⟨(0, 10), "A", false, (1, 1)⟩, none, none,
       some "A", some 1, true⟩ 1 1 rfl (by decide) rfl rfl⟩

end MapClaims

end Escher
